import Mathlib

/-!
Verification of the interactive terminal feedback engine of `ls-merge`:
the `SelectPrompt` element (src/unnamed/part_000, a prompts-style select
list) and the `Spinner` (src/src/lib/Spinner.js with src/src/lib/Utils.js).

The JavaScript is embedded shallowly: JS primitive values become an
inductive `JSPrim`/`JSVal` with explicit truthiness, `undefined` becomes
`Option.none` or a dedicated constructor, stateful classes become records
with explicit state-passing operations, and fallible code returns
`Except`.  Side effects on the terminal stream are modelled by counters
(bell count, writes) and, for the spinner, by an abstract screen that
records the row counts of the ephemeral frames currently drawn.
-/

namespace LsMerge

/-! ## JavaScript primitive values

`JSPrim` models the bare scalars that appear as choice descriptors and
as spinner results: strings and numbers.  Truthiness follows JS: the
empty string and 0 are falsy. -/

inductive JSPrim where
  | pstr (s : String)
  | pnum (n : Int)
  deriving DecidableEq, Repr

def JSPrim.truthy : JSPrim → Bool
  | .pstr s => s ≠ ""
  | .pnum n => n ≠ 0

/-- Truthiness of an optional JS value (`none` models `undefined`). -/
def jsOptTruthy : Option JSPrim → Bool
  | none => false
  | some p => p.truthy

/-! ## SelectPrompt (src/unnamed/part_000)

A choice descriptor is either a bare scalar or an object with optional
`title`/`value` fields and `selected`/`disabled` flags (absent boolean
fields are falsy, modelled as `false`). -/

inductive Descriptor where
  | scalar (v : JSPrim)
  | obj (title : Option JSPrim) (value : Option JSPrim)
        (sel : Bool) (dis : Bool)
  deriving DecidableEq, Repr

/-- The title of a normalized choice: `v && (v.title || v.value || v)`.
For an object whose `title` and `value` are both falsy, the expression
yields the object itself, which is not a primitive; `objSelf` marks that
case. -/
inductive TitleVal where
  | prim (p : JSPrim)
  | objSelf
  deriving DecidableEq, Repr

/-- A normalized choice as built by the `SelectPrompt` constructor:
`{ title, value, selected, disabled }`. -/
structure Choice where
  title : TitleVal
  value : Option JSPrim
  selected : Bool
  disabled : Bool
  deriving DecidableEq, Repr

/-- `v && (v.title || v.value || v)` from the constructor's `map`.
A bare scalar has no `title`/`value` properties (both `undefined`), so
the expression reduces to the scalar itself (whether truthy or falsy,
`v && e` with falsy `v` returns `v`, and with truthy `v` the chain ends
at `v`). -/
def Descriptor.normTitle : Descriptor → TitleVal
  | .scalar v => .prim v
  | .obj t v _ _ =>
      match t with
      | some tp => if tp.truthy then .prim tp else
          match v with
          | some vp => if vp.truthy then .prim vp else .objSelf
          | none => .objSelf
      | none =>
          match v with
          | some vp => if vp.truthy then .prim vp else .objSelf
          | none => .objSelf

/-- `typeof v === 'object' ? v.value : v` from the constructor's `map`:
the normalized value of the choice. -/
def Descriptor.normValue : Descriptor → Option JSPrim
  | .scalar v => some v
  | .obj _ v _ _ => v

/-- `v && v.selected`: truthy only for an object descriptor with a truthy
`selected` field. -/
def Descriptor.normSelected : Descriptor → Bool
  | .scalar _ => false
  | .obj _ _ s _ => s

/-- `v && v.disabled`: truthy only for an object descriptor with a truthy
`disabled` field. -/
def Descriptor.normDisabled : Descriptor → Bool
  | .scalar _ => false
  | .obj _ _ _ d => d

/-- Reading the `value` property directly off a raw descriptor, as the
constructor line `this.value = opts.choices[this.cursor].value` does.
A bare scalar (string or number) has no `value` property, so the read
yields `undefined`. -/
def Descriptor.rawValueProp : Descriptor → Option JSPrim
  | .scalar _ => none
  | .obj _ v _ _ => v

/-- Normalization of one descriptor into a `Choice`, exactly the body of
the constructor's `opts.choices.map`. -/
def normalize (d : Descriptor) : Choice :=
  { title := d.normTitle
    value := d.normValue
    selected := d.normSelected
    disabled := d.normDisabled }

/-- `SelectPrompt` observable state.  `done` and `aborted` start falsy
(`undefined` in JS); `bells`, `fires`, `renders` and `newlines` count
the calls to `this.bell()`, `this.fire()`, `this.render()` and
`this.out.write('\n')`; `closed` records `this.close()`. -/
structure PromptState where
  values : List Choice
  cursor : Nat
  value : Option JSPrim
  done : Bool
  aborted : Bool
  bells : Nat
  fires : Nat
  renders : Nat
  newlines : Nat
  closed : Bool
  deriving DecidableEq, Repr

/-- The `SelectPrompt` constructor: `this.cursor = opts.initial || 0`
(`n || 0` is `n` for every number `n`, since `0 || 0` is `0`), the
normalizing `map`, and `this.value = opts.choices[this.cursor].value`
reading the raw descriptor's `value` property.  The constructor ends in
one `this.render()`.  Requires the initial index to be in range, as the
raw JS would otherwise read a property of `undefined` and throw. -/
def mkSelectPrompt (choices : List Descriptor) (initial : Option Nat) :
    PromptState :=
  let cur := initial.getD 0
  { values := choices.map normalize
    cursor := cur
    value := ((choices.get? cur).getD (.scalar (.pstr ""))).rawValueProp
    done := false
    aborted := false
    bells := 0
    fires := 0
    renders := 1
    newlines := 0
    closed := false }

/-- `get selection() { return this.values[this.cursor]; }` -/
def PromptState.selection (st : PromptState) : Choice :=
  (st.values.get? st.cursor).getD
    { title := .objSelf, value := none, selected := false, disabled := false }

/-- `moveCursor(n)`: sets the cursor, refreshes `this.value` from the
normalized choice list, and fires the change hook. -/
def PromptState.moveCursor (st : PromptState) (n : Nat) : PromptState :=
  { st with
      cursor := n
      value := ((st.values.get? n).getD st.selection).value
      fires := st.fires + 1 }

/-- `submit()`: on an enabled selection sets `done`/`aborted`, fires,
renders, writes a newline and closes; on a disabled selection only
rings the bell. -/
def PromptState.submit (st : PromptState) : PromptState :=
  if !st.selection.disabled then
    { st with
        done := true
        aborted := false
        fires := st.fires + 1
        renders := st.renders + 1
        newlines := st.newlines + 1
        closed := true }
  else
    { st with bells := st.bells + 1 }

/-- `abort()`: sets `done` and `aborted`, fires, renders, writes a
newline and closes. -/
def PromptState.abort (st : PromptState) : PromptState :=
  { st with
      done := true
      aborted := true
      fires := st.fires + 1
      renders := st.renders + 1
      newlines := st.newlines + 1
      closed := true }

/-- `up()`: at index 0 rings the bell and returns; otherwise moves the
cursor one step back and renders. -/
def PromptState.up (st : PromptState) : PromptState :=
  if st.cursor = 0 then
    { st with bells := st.bells + 1 }
  else
    { st.moveCursor (st.cursor - 1) with renders := st.renders + 1 }

/-- `down()`: at the last index rings the bell and returns; otherwise
moves the cursor one step forward and renders. -/
def PromptState.down (st : PromptState) : PromptState :=
  if st.cursor = st.values.length - 1 then
    { st with bells := st.bells + 1 }
  else
    { st.moveCursor (st.cursor + 1) with renders := st.renders + 1 }

/-- `next()`: moves the cursor to `(cursor + 1) % length` and renders;
never rings the bell. -/
def PromptState.next (st : PromptState) : PromptState :=
  { st.moveCursor ((st.cursor + 1) % st.values.length) with
      renders := st.renders + 1 }

/-- `first()`: jumps to index 0. -/
def PromptState.firstOp (st : PromptState) : PromptState :=
  { st.moveCursor 0 with renders := st.renders + 1 }

/-- `last()`: jumps to the last index. -/
def PromptState.lastOp (st : PromptState) : PromptState :=
  { st.moveCursor (st.values.length - 1) with renders := st.renders + 1 }

/-! ## Spinner (src/src/lib/Spinner.js)

### Construction: frame-set resolution -/

/-- A spinner definition as the `cli-spinners` collaborator provides it
and as a caller may supply it: an optional `frames` sequence and an
optional `interval`.  `frames := none` models a custom object that does
not declare `frames` at all. -/
structure SpinnerDef where
  frames : Option (List String)
  interval : Option Nat
  deriving DecidableEq, Repr

/-- The `spinner` option: absent, a built-in animation name, or a
caller-supplied custom object. -/
inductive SpinnerArg where
  | absent
  | name (s : String)
  | custom (d : SpinnerDef)
  deriving DecidableEq, Repr

/-- `cli-spinners.line` (external collaborator data). -/
def cliSpinnersLine : SpinnerDef :=
  { frames := some ["-", "\\", "|", "/"], interval := some 130 }

/-- `cli-spinners.dots` (external collaborator data). -/
def cliSpinnersDots : SpinnerDef :=
  { frames := some ["k1", "k2", "k3", "k4", "k5", "k6", "k7", "k8", "k9", "k10"],
    interval := some 80 }

/-- Lookup of a built-in animation by name in the `cli-spinners`
collaborator, modelled for the two spinners the constructor names
explicitly; every built-in declares a non-empty `frames`.  Unknown
names yield `none`, which the constructor replaces by `dots`. -/
def cliSpinnersLookup (s : String) : Option SpinnerDef :=
  if s = "line" then some cliSpinnersLine
  else if s = "dots" then some cliSpinnersDots
  else none

/-- `typeof sp === 'object' && sp != null ? sp : (win32 ? line :
(cliSpinners[sp] || dots))` from the constructor. -/
def resolveSpinner (isWin32 : Bool) : SpinnerArg → SpinnerDef
  | .custom d => d
  | .name s => if isWin32 then cliSpinnersLine
               else (cliSpinnersLookup s).getD cliSpinnersDots
  | .absent => if isWin32 then cliSpinnersLine else cliSpinnersDots

/-- The constructor's frame-set check:
`if (this.spinner.frames == null) throw new Error(...)`.  Returns the
accepted frame list, or the configuration error. -/
def spinnerConstructFrames (isWin32 : Bool) (arg : SpinnerArg) :
    Except String (List String) :=
  match (resolveSpinner isWin32 arg).frames with
  | none => .error "Spinner must define `frames`"
  | some fs => .ok fs

/-! ### The `text` setter: wrapped-row counting

JS strings are modelled as `List Char` so that `String.prototype.split`
can be embedded as structural recursion.  The external `wcwidth`
collaborator becomes an abstract per-character width function; the
claims instantiate it with single-width characters.  `stripAnsi` is the
identity on the plain texts considered here and is elided. -/

/-- `str.split('\n')` for a JS string: splits on every newline,
yielding one (possibly empty) piece more than there are newlines. -/
def jsSplitNl : List Char → List (List Char)
  | [] => [[]]
  | c :: cs =>
      if c = '\n' then [] :: jsSplitNl cs
      else
        match jsSplitNl cs with
        | [] => [[c]]
        | l :: ls => (c :: l) :: ls

/-- `wcwidth(line)`: the total display width of a line under the
per-character width function `w`. -/
def wcwidthW (w : Char → Nat) (l : List Char) : Nat :=
  (l.map w).sum

/-- `Math.ceil(a / c)` on naturals (for `c > 0`). -/
def ceilDiv (a c : Nat) : Nat := (a + c - 1) / c

/-- The `text` setter's row count:
`stripAnsi('--' + value).split('\n').reduce((count, line) =>
count + Math.max(1, Math.ceil(wcwidth(line) / columns)), 0)`.
The two-character prefix `'--'` stands for the frame glyph and its
separating space and is prepended once, before the split. -/
def computeLineCount (w : Char → Nat) (columns : Nat) (value : List Char) : Nat :=
  ((jsSplitNl ('-' :: '-' :: value)).map
    (fun l => max 1 (ceilDiv (wcwidthW w l) columns))).sum

/-- Modelled from the spec: the row-count formula the specification
states — every line, not only the first, receives the 2-column fixed
prefix: `rows = Σ over lines of max 1 (ceil((wᵢ + 2) / c))`.  Used to
compare the specified formula with the code's `computeLineCount`. -/
def specRowCount (c : Nat) (lineWidths : List Nat) : Nat :=
  (lineWidths.map (fun w => max 1 (ceilDiv (w + 2) c))).sum

/-- Joining lines with `'\n'`, the inverse of `jsSplitNl` on
newline-free lines. -/
def joinNl : List (List Char) → List Char
  | [] => []
  | [l] => l
  | l :: ls => l ++ '\n' :: joinNl ls

/-! ### The promise wrapper (succeed/fail/stopAndPersist and
`module.exports.promise`) -/

/-- General JS values flowing through the wrapper: the action's result,
the `success`/`failure` overrides.  `vundef`/`vnull` model
`undefined`/`null`. -/
inductive JSVal where
  | vstr (s : String)
  | vnum (n : Int)
  | vbool (b : Bool)
  | vundef
  | vnull
  deriving DecidableEq, Repr

/-- `String(v)` on the modelled values. -/
def JSVal.jsToString : JSVal → String
  | .vstr s => s
  | .vnum n => toString n
  | .vbool b => cond b "true" "false"
  | .vundef => "undefined"
  | .vnull => "null"

/-- `typeof v === 'string'`. -/
def JSVal.isJsString : JSVal → Bool
  | .vstr _ => true
  | _ => false

/-- `v != null` (loose comparison: false exactly for `null` and
`undefined`). -/
def JSVal.nonNull : JSVal → Bool
  | .vundef => false
  | .vnull => false
  | _ => true

/-- `(override != null && String(override)) || fallback`: the argument
handed to `succeed`/`fail`.  A non-null override is stringified; if the
resulting string is empty (falsy) the `||` falls through to the
fallback. -/
def overrideOr (override fallback : JSVal) : JSVal :=
  if override.nonNull ∧ override.jsToString ≠ "" then .vstr override.jsToString
  else fallback

/-- The text of the persisted line produced by `succeed`/`fail` for
argument `arg`, with `spinnerText` the spinner's current text: a string
argument becomes `{text: arg}`; any other primitive is ignored by
`_.merge`, so `stopAndPersist` falls back to `this.text`. -/
def persistTextOf (spinnerText : String) : JSVal → String
  | .vstr s => s
  | _ => spinnerText

/-- The settled result of the wrapped action: it resolves with a value
or rejects with an `Error` carrying a `message`. -/
inductive Outcome where
  | resolves (v : JSVal)
  | rejects (message : String)
  deriving DecidableEq, Repr

/-- The `action` argument of `module.exports.promise`: an in-flight
`Promise`, an async function, or anything else (which fails the
`action instanceof Promise || isAsyncFunction(action)` test of
src/src/lib/Utils.js). -/
inductive ActionArg where
  | promiseA (o : Outcome)
  | asyncFnA (o : Outcome)
  | invalidA
  deriving DecidableEq, Repr

/-- The spinner's `lastResult` field: `null` until assigned, then the
resolved value or the raised error. -/
inductive LastResult where
  | unset
  | value (v : JSVal)
  | errorV (message : String)
  deriving DecidableEq, Repr

/-- What the wrapper produces for a valid action: which persisted line
is written once the action settles (`succeed` or `fail`, with its
text), the spinner's `lastResult` at the moment the wrapper's returned
promise resolves, and `lastResult` after the action has settled. -/
structure WrapOutcome where
  persistedAsSuccess : Bool
  persistedText : String
  lastResultAtReturn : LastResult
  lastResultAfterSettle : LastResult
  deriving DecidableEq, Repr

/-- The async-function path of the wrapper: `spinner.lastResult = await
action()` inside `try`, so on success `lastResult` is always assigned
before `succeed`; in `catch`, `(spinner.lastResult = err)` sits in the
right operand of `||`, so it is evaluated only when the failure
override is null or stringifies to the empty string.  The whole path is
awaited, so the state at return equals the state after settlement. -/
def runAsyncFn (text : String) (success failure : JSVal) : Outcome → WrapOutcome
  | .resolves v =>
      { persistedAsSuccess := true
        persistedText := persistTextOf text (overrideOr success v)
        lastResultAtReturn := .value v
        lastResultAfterSettle := .value v }
  | .rejects m =>
      if failure.nonNull ∧ failure.jsToString ≠ "" then
        { persistedAsSuccess := false
          persistedText := failure.jsToString
          lastResultAtReturn := .unset
          lastResultAfterSettle := .unset }
      else
        { persistedAsSuccess := false
          persistedText := m
          lastResultAtReturn := .errorV m
          lastResultAfterSettle := .errorV m }

/-- The in-flight-promise path of the wrapper: `action.then(...)
.catch(...)` is *not* awaited, so the wrapper returns before the action
settles and `lastResult` is still `null` at that moment; both
`(spinner.lastResult = result)` and `(spinner.lastResult = err)` sit in
the right operand of `||`, so they are skipped whenever the
corresponding override is non-null and stringifies to a non-empty
string. -/
def runPromiseArg (text : String) (success failure : JSVal) : Outcome → WrapOutcome
  | .resolves v =>
      if success.nonNull ∧ success.jsToString ≠ "" then
        { persistedAsSuccess := true
          persistedText := success.jsToString
          lastResultAtReturn := .unset
          lastResultAfterSettle := .unset }
      else
        { persistedAsSuccess := true
          persistedText := persistTextOf text v
          lastResultAtReturn := .unset
          lastResultAfterSettle := .value v }
  | .rejects m =>
      if failure.nonNull ∧ failure.jsToString ≠ "" then
        { persistedAsSuccess := false
          persistedText := failure.jsToString
          lastResultAtReturn := .unset
          lastResultAfterSettle := .unset }
      else
        { persistedAsSuccess := false
          persistedText := m
          lastResultAtReturn := .unset
          lastResultAfterSettle := .errorV m }

/-- The promise the wrapper returns: rejected with the `TypeError`
message for an invalid action argument, otherwise resolved with the
wrapper's outcome. -/
def promiseWrap (text : String) (success failure : JSVal) :
    ActionArg → Except String WrapOutcome
  | .invalidA => .error "Parameter `action` must be a Promise or an async function"
  | .asyncFnA o => .ok (runAsyncFn text success failure o)
  | .promiseA o => .ok (runPromiseArg text success failure o)

/-- Calling `module.exports.promise(action, options, {success, failure})`.
The function is declared `async`, so the call expression itself never
throws: the first component — a synchronous exception escaping the call
— is always `none`, and the `throw new TypeError(...)` in the body
surfaces as a rejection of the returned promise (the second
component). -/
def promiseCall (text : String) (success failure : JSVal) (a : ActionArg) :
    Option String × Except String WrapOutcome :=
  (none, promiseWrap text success failure a)

/-! ### Spinner runtime state machine (render/clear/start/stop)

The terminal is modelled by `screen`: the row counts of the ephemeral
animation frames currently drawn, most recent first.  A `write` of a
frame pushes its row count; erasing `k` rows removes `k` rows starting
from the most recent. -/

/-- Erase `k` terminal rows starting from the most recently drawn ones:
whole frames are removed while they fit, a final frame may be truncated. -/
def eraseRows : Nat → List Nat → List Nat
  | 0, fs => fs
  | _, [] => []
  | k, r :: rest => if r ≤ k then eraseRows (k - r) rest else (r - k) :: rest

/-- Spinner runtime state.  `charW`, `columns`, `isEnabled`, `isTTY`
and `frames` are fixed at construction; `screen` models the terminal
contents as described above. -/
structure SpinnerM where
  textVal : List Char
  lineCount : Nat
  linesToClear : Nat
  frameIndex : Nat
  spinning : Bool
  isEnabled : Bool
  isTTY : Bool
  columns : Nat
  charW : Char → Nat
  frames : List String
  screen : List Nat

/-- The `text` setter: stores the text and recomputes the cached
wrapped-row count; `linesToClear` is *not* touched. -/
def SpinnerM.setText (st : SpinnerM) (t : List Char) : SpinnerM :=
  { st with textVal := t, lineCount := computeLineCount st.charW st.columns t }

/-- `clear()`: returns immediately when the spinner is disabled or the
stream is not a TTY; otherwise erases `linesToClear` rows and resets
`linesToClear` to 0. -/
def SpinnerM.clearOp (st : SpinnerM) : SpinnerM :=
  if !st.isEnabled || !st.isTTY then st
  else { st with screen := eraseRows st.linesToClear st.screen, linesToClear := 0 }

/-- `render()`: clears (using the row count cached from the previous
render), writes the new frame — `frame()` advances `frameIndex` modulo
the frame count and the written text occupies `lineCount` rows — and
only then sets `linesToClear` to the row count of what was just
written. -/
def SpinnerM.renderOp (st : SpinnerM) : SpinnerM :=
  let st1 := st.clearOp
  { st1 with
      frameIndex := (st1.frameIndex + 1) % st1.frames.length
      screen := st1.lineCount :: st1.screen
      linesToClear := st1.lineCount }

/-- `start(text?)`: a truthy (non-empty) text argument goes through the
setter; a disabled spinner writes one static `- text` line (terminated
by a newline, hence never part of the erasable screen) and returns; a
spinner already spinning returns; otherwise one immediate render and
the interval timer starts. -/
def SpinnerM.startOp (st : SpinnerM) (t : Option (List Char)) : SpinnerM :=
  let st0 := match t with
    | some s => if s ≠ [] then st.setText s else st
    | none => st
  if !st0.isEnabled then st0
  else if st0.spinning then st0
  else { st0.renderOp with spinning := true }

/-- `stop()`: returns immediately when disabled; otherwise cancels the
timer, resets the frame index, and clears the last drawn frame. -/
def SpinnerM.stopOp (st : SpinnerM) : SpinnerM :=
  if !st.isEnabled then st
  else SpinnerM.clearOp { st with spinning := false, frameIndex := 0 }

/-- The spinner constructor: the `text` setter runs first (computing
`lineCount`), then `this.linesToClear = 0`; nothing is on screen yet. -/
def mkSpinnerM (charW : Char → Nat) (columns : Nat) (text : List Char)
    (isEnabled isTTY : Bool) (frames : List String) : SpinnerM :=
  { textVal := text
    lineCount := computeLineCount charW columns text
    linesToClear := 0
    frameIndex := 0
    spinning := false
    isEnabled := isEnabled
    isTTY := isTTY
    columns := columns
    charW := charW
    frames := frames
    screen := [] }

/-- The operations a caller (or the interval timer, whose tick is a
`render`) can perform after construction. -/
inductive SpinnerOp where
  | setText (t : List Char)
  | render
  | start (t : Option (List Char))
  | stop

/-- Apply one operation. -/
def SpinnerM.applyOp (st : SpinnerM) : SpinnerOp → SpinnerM
  | .setText t => st.setText t
  | .render => st.renderOp
  | .start t => st.startOp t
  | .stop => st.stopOp

/-- Run a sequence of operations. -/
def SpinnerM.runOps (st : SpinnerM) (ops : List SpinnerOp) : SpinnerM :=
  ops.foldl SpinnerM.applyOp st

/-- The runtime invariant of the spinner's clearing machinery:
`linesToClear` equals the row count of the most recently rendered frame
still on screen (0 when the screen holds none), every frame on screen
occupies at least one row, the cached `lineCount` is at least one row,
and on an enabled TTY at most one ephemeral frame is ever on screen. -/
def SpinnerM.Inv (st : SpinnerM) : Prop :=
  st.linesToClear = st.screen.head?.getD 0 ∧
  (∀ r ∈ st.screen, 0 < r) ∧
  0 < st.lineCount ∧
  (st.isEnabled = true → st.isTTY = true → st.screen.length ≤ 1)

end LsMerge

namespace LsMerge

/-! ## Theorems about SelectPrompt -/

/-- **C1.** `submit()` on a disabled selection rings exactly one bell
and leaves every other component of the prompt state unchanged (in
particular `done` is untouched, so it stays `false`); `submit()` on an
enabled selection sets `done := true` and `aborted := false`, rings no
bell, and performs the fire/render/newline/close transition exactly
once. -/
theorem selectPrompt_submit_disabled_bells_enabled_done
    (st : PromptState) :
    (st.selection.disabled = true →
      st.submit = { st with bells := st.bells + 1 }) ∧
    (st.selection.disabled = false →
      (st.submit.done = true ∧ st.submit.aborted = false ∧
       st.submit.bells = st.bells ∧
       st.submit.fires = st.fires + 1 ∧
       st.submit.renders = st.renders + 1 ∧
       st.submit.newlines = st.newlines + 1 ∧
       st.submit.closed = true ∧
       st.submit.cursor = st.cursor ∧ st.submit.value = st.value ∧
       st.submit.values = st.values)) := by
  constructor
  · intro h
    simp [PromptState.submit, h]
  · intro h
    simp [PromptState.submit, h]

/-- Witness for C1 at two concrete prompts: one whose selection is a
disabled object choice, one whose selection is an enabled bare-scalar
choice. -/
theorem selectPrompt_submit_disabled_bells_enabled_done_witness :
    (let st := mkSelectPrompt [.obj (some (.pstr "x")) (some (.pnum 1)) false true] none
     st.submit = { st with bells := st.bells + 1 }) ∧
    (let st := mkSelectPrompt [.scalar (.pstr "b")] none
     st.submit.done = true ∧ st.submit.aborted = false) := by
  refine ⟨?_, ?_⟩
  · exact (selectPrompt_submit_disabled_bells_enabled_done _).1 (by decide)
  · have h := (selectPrompt_submit_disabled_bells_enabled_done
      (mkSelectPrompt [.scalar (.pstr "b")] none)).2 (by decide)
    exact ⟨h.1, h.2.1⟩

/-- **C8.** On a non-empty choice list with the cursor in range:
`up()` at index 0 and `down()` at the last index leave the cursor (and
the observed value) unchanged and ring exactly one bell, while `next()`
always moves the cursor to `(cursor + 1) % len` — wrapping from the
last index to 0 — and rings no bell. -/
theorem selectPrompt_boundary_bell_and_next_wraps
    (st : PromptState) (hlen : 1 ≤ st.values.length)
    (hcur : st.cursor < st.values.length) :
    (st.cursor = 0 → st.up = { st with bells := st.bells + 1 }) ∧
    (st.cursor = st.values.length - 1 →
      st.down = { st with bells := st.bells + 1 }) ∧
    (st.next.cursor = (st.cursor + 1) % st.values.length ∧
     st.next.bells = st.bells ∧
     (st.cursor = st.values.length - 1 → st.next.cursor = 0)) := by
  refine ⟨?_, ?_, ?_, ?_, ?_⟩
  · intro h
    simp [PromptState.up, h]
  · intro h
    simp [PromptState.down, h]
  · simp [PromptState.next, PromptState.moveCursor]
  · simp [PromptState.next, PromptState.moveCursor]
  · intro h
    have hsucc : st.cursor + 1 = st.values.length := by omega
    simp [PromptState.next, PromptState.moveCursor, hsucc]

/-- Witness for C8 at a concrete prompt: three enabled string choices,
cursor at the last index. -/
theorem selectPrompt_boundary_bell_and_next_wraps_witness :
    let st := mkSelectPrompt
      [.scalar (.pstr "a"), .scalar (.pstr "b"), .scalar (.pstr "c")]
      (some 2)
    (1 ≤ st.values.length ∧ st.cursor < st.values.length) ∧
    (st.down = { st with bells := st.bells + 1 } ∧ st.next.cursor = 0) := by
  refine ⟨⟨by decide, by decide⟩, ?_, ?_⟩
  · exact (selectPrompt_boundary_bell_and_next_wraps _
      (by decide) (by decide)).2.1 (by decide)
  · exact (selectPrompt_boundary_bell_and_next_wraps _
      (by decide) (by decide)).2.2.2.2 (by decide)

/-- **C2, counterexample.** For the single bare-scalar choice list
`["a"]` with initial index 0, the constructor's
`this.value = opts.choices[0].value` reads the (nonexistent) `value`
property of the raw string descriptor, so the observable value is
`undefined` (`none`), not the normalized choice's value `some "a"`:
the claim that the initial value equals the normalized choice's value
is false. -/
theorem selectPrompt_initial_value_counterexample :
    (mkSelectPrompt [.scalar (.pstr "a")] none).value = none ∧
    (normalize (.scalar (.pstr "a"))).value = some (.pstr "a") ∧
    (mkSelectPrompt [.scalar (.pstr "a")] none).value ≠
      (normalize (.scalar (.pstr "a"))).value := by
  decide

/-- **C2, amended.** Immediately after construction with a valid initial
index, the observable value equals the `value` property of the *raw*
descriptor at that index: for an object descriptor this coincides with
the normalized choice's value, but for a bare scalar descriptor it is
`undefined` (`none`), not the scalar. -/
theorem selectPrompt_initial_value_is_raw_value_prop
    (choices : List Descriptor) (initial : Option Nat)
    (h : initial.getD 0 < choices.length) :
    (mkSelectPrompt choices initial).value =
      (choices.get ⟨initial.getD 0, h⟩).rawValueProp ∧
    (∀ t v s d, choices.get ⟨initial.getD 0, h⟩ = .obj t v s d →
      (mkSelectPrompt choices initial).value =
        (normalize (choices.get ⟨initial.getD 0, h⟩)).value) ∧
    (∀ p, choices.get ⟨initial.getD 0, h⟩ = .scalar p →
      (mkSelectPrompt choices initial).value = none) := by
  have hg : choices[initial.getD 0]? = some choices[initial.getD 0] :=
    List.getElem?_eq_getElem h
  refine ⟨?_, ?_, ?_⟩
  · simp [mkSelectPrompt, hg]
  · intro t v s d hobj
    simp only [List.get_eq_getElem] at hobj
    simp [mkSelectPrompt, hg, hobj, Descriptor.rawValueProp, normalize,
      Descriptor.normValue]
  · intro p hp
    simp only [List.get_eq_getElem] at hp
    simp [mkSelectPrompt, hg, hp, Descriptor.rawValueProp]

/-! ## Theorems about Spinner construction -/

/-- Helper: the modelled built-in lookup only ever yields the `line` or
`dots` spinner. -/
theorem cliSpinnersLookup_cases (s : String) (d : SpinnerDef)
    (h : cliSpinnersLookup s = some d) :
    d = cliSpinnersLine ∨ d = cliSpinnersDots := by
  unfold cliSpinnersLookup at h
  split at h
  · exact Or.inl (Option.some.inj h).symm
  · split at h
    · exact Or.inr (Option.some.inj h).symm
    · exact absurd h (by simp)

/-- **C3, counterexample.** A caller-supplied custom spinner whose
`frames` is the *empty* array passes the constructor's
`frames == null` check: construction succeeds (yielding the empty frame
list), so an empty frame sequence is *not* rejected at construction,
contrary to the claim. -/
theorem spinner_empty_frames_accepted_counterexample :
    spinnerConstructFrames false (.custom { frames := some [], interval := none })
      = .ok [] ∧
    spinnerConstructFrames false (.custom { frames := some [], interval := none })
      ≠ .error "Spinner must define `frames`" := by
  constructor
  · rfl
  · simp [spinnerConstructFrames, resolveSpinner]

/-- **C3, amended.** Construction fails with the configuration error
exactly when the resolved spinner declares no `frames` at all
(`frames == null`): a custom object without a `frames` property is
rejected before any rendering, a custom object with a declared — even
empty — `frames` array is accepted, and a named or absent spinner
option always resolves to a built-in with a non-empty frame list. -/
theorem spinner_construct_fails_iff_frames_undeclared
    (isWin32 : Bool) (arg : SpinnerArg) :
    (spinnerConstructFrames isWin32 arg = .error "Spinner must define `frames`"
      ↔ (resolveSpinner isWin32 arg).frames = none) ∧
    (∀ d : SpinnerDef, arg = .custom d →
      (spinnerConstructFrames isWin32 arg = .error "Spinner must define `frames`"
        ↔ d.frames = none)) ∧
    (∀ s, arg = .name s →
      ∃ fs, spinnerConstructFrames isWin32 arg = .ok fs ∧ fs ≠ []) ∧
    (arg = .absent →
      ∃ fs, spinnerConstructFrames isWin32 arg = .ok fs ∧ fs ≠ []) := by
  refine ⟨?_, ?_, ?_, ?_⟩
  · cases h : (resolveSpinner isWin32 arg).frames <;>
      simp [spinnerConstructFrames, h]
  · intro d hd
    subst hd
    cases h : d.frames <;>
      simp [spinnerConstructFrames, resolveSpinner, h]
  · intro s hs
    subst hs
    cases isWin32 with
    | true =>
        exact ⟨["-", "\\", "|", "/"],
          by simp [spinnerConstructFrames, resolveSpinner, cliSpinnersLine],
          by simp⟩
    | false =>
        cases h : cliSpinnersLookup s with
        | none =>
            exact ⟨["k1", "k2", "k3", "k4", "k5", "k6", "k7", "k8", "k9", "k10"],
              by simp [spinnerConstructFrames, resolveSpinner, h, cliSpinnersDots],
              by simp⟩
        | some d =>
            rcases cliSpinnersLookup_cases s d h with hd | hd <;> subst hd
            · exact ⟨["-", "\\", "|", "/"],
                by simp [spinnerConstructFrames, resolveSpinner, h, cliSpinnersLine],
                by simp⟩
            · exact ⟨["k1", "k2", "k3", "k4", "k5", "k6", "k7", "k8", "k9", "k10"],
                by simp [spinnerConstructFrames, resolveSpinner, h, cliSpinnersDots],
                by simp⟩
  · intro ha
    subst ha
    cases isWin32 with
    | true =>
        exact ⟨["-", "\\", "|", "/"],
          by simp [spinnerConstructFrames, resolveSpinner, cliSpinnersLine],
          by simp⟩
    | false =>
        exact ⟨["k1", "k2", "k3", "k4", "k5", "k6", "k7", "k8", "k9", "k10"],
          by simp [spinnerConstructFrames, resolveSpinner, cliSpinnersDots],
          by simp⟩

/-- Witness for the amended C3: a custom spinner without a `frames`
property is rejected, and the absent-spinner default constructs. -/
theorem spinner_construct_fails_iff_frames_undeclared_witness :
    (spinnerConstructFrames false (.custom { frames := none, interval := some 90 })
      = .error "Spinner must define `frames`") ∧
    (∃ fs, spinnerConstructFrames false .absent = .ok fs ∧ fs ≠ []) := by
  constructor
  · exact ((spinner_construct_fails_iff_frames_undeclared false
      (.custom { frames := none, interval := some 90 })).2.1 _ rfl).2 rfl
  · exact (spinner_construct_fails_iff_frames_undeclared false .absent).2.2.2 rfl

/-! ## Theorems about the text setter's row counting -/

/-- `split` never yields an empty list of pieces. -/
theorem jsSplitNl_ne_nil (l : List Char) : jsSplitNl l ≠ [] := by
  induction l with
  | nil => simp [jsSplitNl]
  | cons c cs ih =>
      simp only [jsSplitNl]
      split
      · simp
      · cases h : jsSplitNl cs with
        | nil => exact absurd h ih
        | cons a as => simp [h]

/-- A newline-free string splits into the single piece that is itself. -/
theorem jsSplitNl_no_nl : ∀ (l : List Char), '\n' ∉ l → jsSplitNl l = [l]
  | [], _ => rfl
  | c :: cs, h => by
      have hc : ¬ c = '\n' := fun hcc => h (hcc ▸ List.mem_cons_self c cs)
      have ih := jsSplitNl_no_nl cs (fun hm => h (List.mem_cons_of_mem c hm))
      simp [jsSplitNl, hc, ih]

/-- Prepending a newline-free prefix extends the first piece of the
split and leaves the remaining pieces unchanged. -/
theorem jsSplitNl_append : ∀ (a b : List Char) (l : List Char) (ls : List (List Char)),
    '\n' ∉ a → jsSplitNl b = l :: ls → jsSplitNl (a ++ b) = (a ++ l) :: ls
  | [], b, l, ls, _, hb => by simpa using hb
  | c :: cs, b, l, ls, ha, hb => by
      have hc : ¬ c = '\n' := fun hcc => ha (hcc ▸ List.mem_cons_self c cs)
      have ih := jsSplitNl_append cs b l ls (fun hm => ha (List.mem_cons_of_mem c hm)) hb
      simp [jsSplitNl, hc, ih]

/-- Splitting on newlines inverts joining newline-free lines. -/
theorem jsSplitNl_joinNl : ∀ (lines : List (List Char)),
    (∀ l ∈ lines, '\n' ∉ l) → lines ≠ [] → jsSplitNl (joinNl lines) = lines
  | [], _, hne => absurd rfl hne
  | [l], h, _ => by
      simpa [joinNl] using jsSplitNl_no_nl l (h l (by simp))
  | l :: l2 :: ls, h, _ => by
      have ih := jsSplitNl_joinNl (l2 :: ls)
        (fun x hx => h x (List.mem_cons_of_mem _ hx)) (by simp)
      have hs : jsSplitNl ('\n' :: joinNl (l2 :: ls)) = [] :: l2 :: ls := by
        simp [jsSplitNl, ih]
      have happ := jsSplitNl_append l ('\n' :: joinNl (l2 :: ls)) [] (l2 :: ls)
        (h l (by simp)) hs
      simpa [joinNl] using happ

/-- `ceilDiv` of a positive numerator by a positive denominator is at
least one row. -/
theorem ceilDiv_pos (a c : Nat) (ha : 0 < a) (hc : 0 < c) : 1 ≤ ceilDiv a c := by
  unfold ceilDiv
  rw [Nat.one_le_div_iff hc]
  omega

/-- A line of single-width characters is as wide as it is long. -/
theorem wcwidthW_all_one (w : Char → Nat) :
    ∀ (l : List Char), (∀ ch ∈ l, w ch = 1) → wcwidthW w l = l.length
  | [], _ => rfl
  | c :: cs, h => by
      have ih := wcwidthW_all_one w cs (fun x hx => h x (List.mem_cons_of_mem _ hx))
      simp only [wcwidthW, List.map_cons, List.sum_cons, List.length_cons] at ih ⊢
      rw [h c (List.mem_cons_self c cs), ih]
      omega

/-- **C4, counterexample.** For the two-line single-width text `"a\nbb"`
at terminal width 1, the setter caches `ceil(3/1) + ceil(2/1) = 5` rows
— the 2-column prefix is charged only to the first line — while the
claimed per-line formula `Σ ceil((wᵢ+2)/c)` gives `ceil(3/1) +
ceil(4/1) = 7`: the claimed multi-line formula does not match the
code. -/
theorem spinner_lineCount_counterexample :
    computeLineCount (fun _ => 1) 1 ['a', '\n', 'b', 'b'] = 5 ∧
    specRowCount 1 [1, 2] = 7 ∧
    computeLineCount (fun _ => 1) 1 ['a', '\n', 'b', 'b'] ≠ specRowCount 1 [1, 2] := by
  refine ⟨by decide, by decide, by decide⟩

/-- **C4, amended.** For single-width prefix characters and terminal
width `c > 0`: the cached row count charges the 2-column fixed prefix
to the *first* line only — it equals
`max 1 (ceil((w₁+2)/c)) + Σᵢ≥₂ max 1 (ceil(wᵢ/c))` over the text's
newline-free lines (minimum 1 row per line) — and for a single line of
`w > 0` single-width characters it equals `ceil((w+2)/c)` exactly as
the claim states. -/
theorem spinner_lineCount_prefix_first_line_only
    (w : Char → Nat) (c : Nat) (hc : 0 < c) (hdash : w '-' = 1)
    (first : List Char) (rest : List (List Char))
    (hnl : ∀ l ∈ first :: rest, '\n' ∉ l) :
    computeLineCount w c (joinNl (first :: rest)) =
      max 1 (ceilDiv (wcwidthW w first + 2) c) +
      (rest.map (fun l => max 1 (ceilDiv (wcwidthW w l) c))).sum ∧
    (rest = [] → (∀ ch ∈ first, w ch = 1) → first ≠ [] →
      computeLineCount w c (joinNl (first :: rest)) =
        ceilDiv (first.length + 2) c) := by
  have hsplit : jsSplitNl (joinNl (first :: rest)) = first :: rest :=
    jsSplitNl_joinNl _ hnl (by simp)
  have h2 : jsSplitNl ('-' :: '-' :: joinNl (first :: rest)) =
      ('-' :: '-' :: first) :: rest := by
    have := jsSplitNl_append ['-', '-'] (joinNl (first :: rest)) first rest
      (by decide) hsplit
    simpa using this
  have hw : wcwidthW w ('-' :: '-' :: first) = wcwidthW w first + 2 := by
    simp only [wcwidthW, List.map_cons, List.sum_cons, hdash]
    omega
  have main : computeLineCount w c (joinNl (first :: rest)) =
      max 1 (ceilDiv (wcwidthW w first + 2) c) +
      (rest.map (fun l => max 1 (ceilDiv (wcwidthW w l) c))).sum := by
    unfold computeLineCount
    rw [h2]
    simp [hw]
  refine ⟨main, ?_⟩
  intro hrest hall hne
  subst hrest
  have hlen : wcwidthW w first = first.length := wcwidthW_all_one w first hall
  have hpos : 1 ≤ ceilDiv (first.length + 2) c :=
    ceilDiv_pos _ _ (by omega) hc
  rw [main, hlen]
  simp [Nat.max_eq_right hpos]

/-- Witness for the amended C4: the two-line text `"ab\nc"` at width 3
(first line 2 wide, prefix makes 4 → 2 rows; second line 1 wide → 1
row), and the single line `"ab"` at width 3 (4 columns → 2 rows). -/
theorem spinner_lineCount_prefix_first_line_only_witness :
    (0 < 3 ∧ computeLineCount (fun _ => 1) 3 (joinNl [['a', 'b'], ['c']]) =
      max 1 (ceilDiv (wcwidthW (fun _ => 1) ['a', 'b'] + 2) 3) +
      ([['c']].map (fun l => max 1 (ceilDiv (wcwidthW (fun _ => 1) l) 3))).sum) ∧
    computeLineCount (fun _ => 1) 3 (joinNl [(['a', 'b'] : List Char)]) =
      ceilDiv (['a', 'b'].length + 2) 3 := by
  refine ⟨⟨by decide, ?_⟩, ?_⟩
  · exact (spinner_lineCount_prefix_first_line_only (fun _ => 1) 3 (by decide) rfl
      ['a', 'b'] [['c']] (by decide)).1
  · exact (spinner_lineCount_prefix_first_line_only (fun _ => 1) 3 (by decide) rfl
      ['a', 'b'] [] (by decide)).2 rfl (by decide) (by decide)

/-! ## Theorems about the async-action wrapper -/

/-- **C5, counterexample.** With no overrides, an async action resolving
with the *number* 42 does not produce a persisted line `"42"`: the raw
(non-string) value reaches `succeed`, `_.merge` ignores the non-object
argument, and `stopAndPersist` falls back to the spinner's current text
`"working"`.  Moreover an explicit *empty-string* success override is
not used verbatim: it is falsy, so the `||` falls through to the
resolved value `"done"`. -/
theorem promise_persisted_line_counterexample :
    promiseWrap "working" .vundef .vundef (.asyncFnA (.resolves (.vnum 42))) =
      .ok { persistedAsSuccess := true
            persistedText := "working"
            lastResultAtReturn := .value (.vnum 42)
            lastResultAfterSettle := .value (.vnum 42) } ∧
    (JSVal.vnum 42).jsToString = "42" ∧
    ("working" : String) ≠ "42" ∧
    promiseWrap "t" (.vstr "") .vundef (.asyncFnA (.resolves (.vstr "done"))) =
      .ok { persistedAsSuccess := true
            persistedText := "done"
            lastResultAtReturn := .value (.vstr "done")
            lastResultAfterSettle := .value (.vstr "done") } ∧
    ("done" : String) ≠ "" := by
  refine ⟨by rfl, by decide, by decide, by rfl, by decide⟩

/-- **C5, amended.** For both valid action kinds: with no success
override, a resolving action persists the resolved value itself when it
is a string, and the spinner's current text when it is not a string
(the value is *not* stringified); with no failure override, a rejecting
action persists the error's message; a *non-empty* override string is
used verbatim regardless of the result, while an empty-string override
is falsy and falls through to the default. -/
theorem promise_persisted_line_amended
    (text m : String) (v : JSVal) (success failure : JSVal) :
    (∀ s, v = .vstr s →
      (runAsyncFn text .vundef .vundef (.resolves v)).persistedText = s ∧
      (runPromiseArg text .vundef .vundef (.resolves v)).persistedText = s) ∧
    (v.isJsString = false →
      (runAsyncFn text .vundef .vundef (.resolves v)).persistedText = text ∧
      (runPromiseArg text .vundef .vundef (.resolves v)).persistedText = text) ∧
    ((runAsyncFn text success .vundef (.rejects m)).persistedText = m ∧
     (runPromiseArg text success .vundef (.rejects m)).persistedText = m) ∧
    (∀ s, s ≠ "" →
      (runAsyncFn text (.vstr s) failure (.resolves v)).persistedText = s ∧
      (runAsyncFn text success (.vstr s) (.rejects m)).persistedText = s ∧
      (runPromiseArg text (.vstr s) failure (.resolves v)).persistedText = s ∧
      (runPromiseArg text success (.vstr s) (.rejects m)).persistedText = s) ∧
    ((runAsyncFn text (.vstr "") .vundef (.resolves v)).persistedText =
      persistTextOf text v) := by
  refine ⟨?_, ?_, ?_, ?_, ?_⟩
  · rintro s rfl
    constructor <;>
      simp [runAsyncFn, runPromiseArg, overrideOr, JSVal.nonNull, persistTextOf]
  · intro hv
    cases v <;> simp_all [runAsyncFn, runPromiseArg, overrideOr, JSVal.nonNull,
      persistTextOf, JSVal.isJsString]
  · constructor <;>
      simp [runAsyncFn, runPromiseArg, JSVal.nonNull]
  · intro s hs
    refine ⟨?_, ?_, ?_, ?_⟩ <;>
      simp [runAsyncFn, runPromiseArg, overrideOr, JSVal.nonNull,
        JSVal.jsToString, persistTextOf, hs]
  · simp [runAsyncFn, overrideOr, JSVal.nonNull, JSVal.jsToString]

/-- Witness for the amended C5: a string result is persisted verbatim,
and a non-empty failure override wins over the error message. -/
theorem promise_persisted_line_amended_witness :
    (runAsyncFn "t" .vundef .vundef (.resolves (.vstr "ok"))).persistedText = "ok" ∧
    (runPromiseArg "t" .vundef (.vstr "no") (.rejects "boom")).persistedText = "no" := by
  constructor
  · exact ((promise_persisted_line_amended "t" "m" (.vstr "ok") .vundef .vundef).1
      "ok" rfl).1
  · exact ((promise_persisted_line_amended "t" "boom" .vundef .vundef .vundef).2.2.2.1
      "no" (by decide)).2.2.2

/-- **C6, counterexample.** Calling the wrapper with an invalid `action`
(neither a `Promise` nor an async function) does *not* throw
synchronously: the wrapper is an `async` function, so the call returns
normally (no synchronous exception — first component `none`) and the
`TypeError` surfaces as a rejection of the returned promise. -/
theorem promise_no_sync_throw_counterexample :
    (promiseCall "" .vundef .vundef .invalidA).1 = none ∧
    (promiseCall "" .vundef .vundef .invalidA).2 =
      .error "Parameter `action` must be a Promise or an async function" := by
  exact ⟨rfl, rfl⟩

/-- **C6, amended.** The wrapper never propagates a wrapped action's
failure (for every valid action, settled either way, the returned
promise resolves with the spinner), and for an invalid action it fails
fast with a `TypeError` — delivered as an immediately rejected returned
promise, not as a synchronous throw, since the wrapper is an `async`
function (the call expression itself never raises). -/
theorem promise_fail_fast_no_propagation
    (text : String) (success failure : JSVal) (a : ActionArg) :
    (promiseCall text success failure a).1 = none ∧
    (∀ o, a = .asyncFnA o ∨ a = .promiseA o →
      ∃ w, (promiseCall text success failure a).2 = .ok w) ∧
    (a = .invalidA →
      (promiseCall text success failure a).2 =
        .error "Parameter `action` must be a Promise or an async function") := by
  refine ⟨rfl, ?_, ?_⟩
  · rintro o (rfl | rfl)
    · exact ⟨_, rfl⟩
    · exact ⟨_, rfl⟩
  · rintro rfl
    rfl

/-- Witness for the amended C6: a rejecting async-function action does
not reject the wrapper's returned promise. -/
theorem promise_fail_fast_no_propagation_witness :
    (promiseCall "t" .vundef .vundef (.asyncFnA (.rejects "boom"))).1 = none ∧
    (∃ w, (promiseCall "t" .vundef .vundef (.asyncFnA (.rejects "boom"))).2 = .ok w) := by
  have h := promise_fail_fast_no_propagation "t" .vundef .vundef
    (.asyncFnA (.rejects "boom"))
  exact ⟨h.1, h.2.1 _ (Or.inl rfl)⟩

/-- **C7, counterexample.** For an in-flight `Promise` action resolving
with 42, the wrapper attaches `.then`/`.catch` without awaiting and
returns: at the moment its returned promise resolves, `lastResult` is
still unset (`null`), not the resolved value. -/
theorem promise_lastResult_counterexample :
    promiseWrap "" .vundef .vundef (.promiseA (.resolves (.vnum 42))) =
      .ok { persistedAsSuccess := true
            persistedText := ""
            lastResultAtReturn := .unset
            lastResultAfterSettle := .value (.vnum 42) } ∧
    LastResult.unset ≠ .value (.vnum 42) := by
  refine ⟨by rfl, by decide⟩

/-- **C7, amended.** `lastResult` at the moment the wrapper's returned
promise resolves is populated only on the async-function path: there,
the resolved value is always captured, and a raised error is captured
exactly when no effective (non-null, non-empty when stringified)
failure override is supplied — an effective override skips the
`(spinner.lastResult = err)` assignment.  On the in-flight-`Promise`
path the wrapper does not await, so `lastResult` is still unset at that
moment; after the action settles it is populated exactly when the
corresponding override is ineffective. -/
theorem promise_lastResult_amended
    (text m : String) (v : JSVal) (success failure : JSVal) :
    ((runAsyncFn text success failure (.resolves v)).lastResultAtReturn = .value v) ∧
    (¬(failure.nonNull = true ∧ failure.jsToString ≠ "") →
      (runAsyncFn text success failure (.rejects m)).lastResultAtReturn = .errorV m) ∧
    ((failure.nonNull = true ∧ failure.jsToString ≠ "") →
      (runAsyncFn text success failure (.rejects m)).lastResultAtReturn = .unset) ∧
    ((runPromiseArg text success failure (.resolves v)).lastResultAtReturn = .unset ∧
     (runPromiseArg text success failure (.rejects m)).lastResultAtReturn = .unset) ∧
    (¬(success.nonNull = true ∧ success.jsToString ≠ "") →
      (runPromiseArg text success failure (.resolves v)).lastResultAfterSettle = .value v) ∧
    (¬(failure.nonNull = true ∧ failure.jsToString ≠ "") →
      (runPromiseArg text success failure (.rejects m)).lastResultAfterSettle = .errorV m) ∧
    ((success.nonNull = true ∧ success.jsToString ≠ "") →
      (runPromiseArg text success failure (.resolves v)).lastResultAfterSettle = .unset) ∧
    ((failure.nonNull = true ∧ failure.jsToString ≠ "") →
      (runPromiseArg text success failure (.rejects m)).lastResultAfterSettle = .unset) := by
  refine ⟨?_, ?_, ?_, ⟨?_, ?_⟩, ?_, ?_, ?_, ?_⟩
  · simp [runAsyncFn]
  · intro h
    simp only [runAsyncFn]
    rw [if_neg h]
  · intro h
    simp only [runAsyncFn]
    rw [if_pos h]
  · simp only [runPromiseArg]
    split <;> rfl
  · simp only [runPromiseArg]
    split <;> rfl
  · intro h
    simp only [runPromiseArg]
    rw [if_neg h]
  · intro h
    simp only [runPromiseArg]
    rw [if_neg h]
  · intro h
    simp only [runPromiseArg]
    rw [if_pos h]
  · intro h
    simp only [runPromiseArg]
    rw [if_pos h]

/-- Witness for the amended C7: an async-function action resolving with
7 has `lastResult = 7` at return; a `Promise` action resolving with 7
still has `lastResult` unset at return, and is populated after
settlement with no override but stays unset forever under an effective
success override. -/
theorem promise_lastResult_amended_witness :
    (runAsyncFn "t" .vundef .vundef (.resolves (.vnum 7))).lastResultAtReturn =
      .value (.vnum 7) ∧
    (runPromiseArg "t" .vundef .vundef (.resolves (.vnum 7))).lastResultAtReturn =
      .unset ∧
    (runPromiseArg "t" .vundef .vundef (.resolves (.vnum 7))).lastResultAfterSettle =
      .value (.vnum 7) ∧
    (runPromiseArg "t" (.vstr "done") .vundef (.resolves (.vnum 7))).lastResultAfterSettle =
      .unset := by
  have h := promise_lastResult_amended "t" "m" (.vnum 7) .vundef .vundef
  have h2 := promise_lastResult_amended "t" "m" (.vnum 7) (.vstr "done") .vundef
  refine ⟨h.1, h.2.2.2.1.1, h.2.2.2.2.1 (by simp [JSVal.nonNull]), ?_⟩
  exact h2.2.2.2.2.2.2.1 ⟨by simp [JSVal.nonNull], by simp [JSVal.jsToString]⟩

/-! ## Theorems about the spinner's clearing machinery -/

/-- The cached row count is always at least one row. -/
theorem computeLineCount_pos (w : Char → Nat) (c : Nat) (t : List Char) :
    0 < computeLineCount w c t := by
  unfold computeLineCount
  cases h : jsSplitNl ('-' :: '-' :: t) with
  | nil => exact absurd h (jsSplitNl_ne_nil _)
  | cons a as =>
      simp only [List.map_cons, List.sum_cons]
      have := le_max_left 1 (ceilDiv (wcwidthW w a) c)
      omega

/-- Erasing exactly as many rows as the top frame occupies removes
exactly that frame. -/
theorem eraseRows_head (r : Nat) (rest : List Nat) (hr : 0 < r) :
    eraseRows r (r :: rest) = rest := by
  cases r with
  | zero => omega
  | succ n => simp [eraseRows]

/-- `clear()` keeps the cached row count. -/
theorem clearOp_lineCount (st : SpinnerM) : st.clearOp.lineCount = st.lineCount := by
  unfold SpinnerM.clearOp
  split <;> rfl

/-- On an enabled TTY, `clear()` in a state satisfying the invariant
erases exactly the most recently rendered frame. -/
theorem clearOp_screen_tail (st : SpinnerM) (h : st.Inv)
    (he : st.isEnabled = true) (ht : st.isTTY = true) :
    st.clearOp.screen = st.screen.tail := by
  obtain ⟨h1, h2, _, _⟩ := h
  unfold SpinnerM.clearOp
  rw [he, ht]
  simp only [Bool.not_true, Bool.or_self, Bool.false_eq_true, if_false]
  cases hs : st.screen with
  | nil =>
      rw [hs] at h1
      simp only [List.head?_nil, Option.getD_none] at h1
      simp [h1, eraseRows]
  | cons r rest =>
      have hr : 0 < r := h2 r (by rw [hs]; exact List.mem_cons_self r rest)
      rw [hs] at h1
      simp only [List.head?_cons, Option.getD_some] at h1
      simp [h1, eraseRows_head r rest hr]

/-- On an enabled TTY, `clear()` in an invariant state leaves nothing on
screen. -/
theorem clearOp_screen_empty (st : SpinnerM) (h : st.Inv)
    (he : st.isEnabled = true) (ht : st.isTTY = true) :
    st.clearOp.screen = [] := by
  rw [clearOp_screen_tail st h he ht]
  obtain ⟨_, _, _, h4⟩ := h
  have := h4 he ht
  cases hs : st.screen with
  | nil => rfl
  | cons r rest => rw [hs] at this; simp at this; simp [this]

/-- The invariant holds after construction. -/
theorem inv_mkSpinnerM (charW : Char → Nat) (columns : Nat) (text : List Char)
    (isEnabled isTTY : Bool) (frames : List String) :
    (mkSpinnerM charW columns text isEnabled isTTY frames).Inv :=
  ⟨rfl, by intro r hr; simp [mkSpinnerM] at hr, computeLineCount_pos _ _ _,
    by intro _ _; simp [mkSpinnerM]⟩

/-- The `text` setter preserves the invariant: it recomputes
`lineCount` but touches neither `linesToClear` nor the screen. -/
theorem inv_setText (st : SpinnerM) (h : st.Inv) (t : List Char) :
    (st.setText t).Inv := by
  obtain ⟨h1, h2, _, h4⟩ := h
  exact ⟨h1, h2, computeLineCount_pos _ _ _, h4⟩

/-- `clear()` keeps the `isEnabled` flag. -/
theorem clearOp_isEnabled (st : SpinnerM) : st.clearOp.isEnabled = st.isEnabled := by
  unfold SpinnerM.clearOp
  split <;> rfl

/-- `clear()` keeps the `isTTY` flag. -/
theorem clearOp_isTTY (st : SpinnerM) : st.clearOp.isTTY = st.isTTY := by
  unfold SpinnerM.clearOp
  split <;> rfl

/-- `clear()` preserves the invariant. -/
theorem inv_clearOp (st : SpinnerM) (h : st.Inv) : st.clearOp.Inv := by
  obtain ⟨h1, h2, h3, h4⟩ := h
  by_cases hcond : (!st.isEnabled || !st.isTTY) = true
  · have : st.clearOp = st := by
      unfold SpinnerM.clearOp
      rw [if_pos hcond]
    rw [this]
    exact ⟨h1, h2, h3, h4⟩
  · have hET : st.isEnabled = true ∧ st.isTTY = true := by
      cases hE : st.isEnabled <;> cases hT : st.isTTY <;>
        rw [hE, hT] at hcond <;> simp_all
    have hempty : st.clearOp.screen = [] :=
      clearOp_screen_empty st ⟨h1, h2, h3, h4⟩ hET.1 hET.2
    have hltc : st.clearOp.linesToClear = 0 := by
      unfold SpinnerM.clearOp
      rw [if_neg hcond]
    refine ⟨?_, ?_, ?_, ?_⟩
    · rw [hltc, hempty]
      rfl
    · intro r hr
      rw [hempty] at hr
      simp at hr
    · rw [clearOp_lineCount]
      exact h3
    · intro _ _
      rw [hempty]
      simp

/-- `render()` preserves the invariant: it clears, pushes a frame of
`lineCount` rows, and caches exactly that row count. -/
theorem inv_renderOp (st : SpinnerM) (h : st.Inv) : st.renderOp.Inv := by
  have hc := inv_clearOp st h
  obtain ⟨hc1, hc2, hc3, hc4⟩ := hc
  refine ⟨rfl, ?_, hc3, ?_⟩
  · intro r hr
    have hr' : r ∈ st.clearOp.lineCount :: st.clearOp.screen := hr
    rcases List.mem_cons.1 hr' with hcase | hcase
    · rw [hcase]
      exact hc3
    · exact hc2 r hcase
  · intro he ht
    have he' : st.isEnabled = true := by rw [← clearOp_isEnabled st]; exact he
    have ht' : st.isTTY = true := by rw [← clearOp_isTTY st]; exact ht
    have hemp : st.clearOp.screen = [] := clearOp_screen_empty st h he' ht'
    show (st.clearOp.lineCount :: st.clearOp.screen).length ≤ 1
    rw [hemp]
    simp

/-- `start()` preserves the invariant through all of its branches. -/
theorem inv_startOp (st : SpinnerM) (h : st.Inv) (t : Option (List Char)) :
    (st.startOp t).Inv := by
  have hbr : ∀ st0 : SpinnerM, st0.Inv →
      (if !st0.isEnabled then st0 else if st0.spinning then st0
       else { st0.renderOp with spinning := true }).Inv := by
    intro st0 h0
    split
    · exact h0
    · split
      · exact h0
      · have hr := inv_renderOp st0 h0
        exact ⟨hr.1, hr.2.1, hr.2.2.1, hr.2.2.2⟩
  have h0 : (match t with
      | some s => if s ≠ [] then st.setText s else st
      | none => st).Inv := by
    cases t with
    | none => exact h
    | some s =>
        show (if s ≠ [] then st.setText s else st).Inv
        rcases eq_or_ne s [] with hs | hs
        · rw [if_neg (fun hne => hne hs)]
          exact h
        · rw [if_pos hs]
          exact inv_setText st h s
  unfold SpinnerM.startOp
  exact hbr _ h0

/-- `stop()` preserves the invariant. -/
theorem inv_stopOp (st : SpinnerM) (h : st.Inv) : st.stopOp.Inv := by
  unfold SpinnerM.stopOp
  split
  · exact h
  · exact inv_clearOp _ ⟨h.1, h.2.1, h.2.2.1, h.2.2.2⟩

/-- Every operation preserves the invariant. -/
theorem inv_applyOp (st : SpinnerM) (h : st.Inv) (op : SpinnerOp) :
    (st.applyOp op).Inv := by
  cases op with
  | setText t => exact inv_setText st h t
  | render => exact inv_renderOp st h
  | start t => exact inv_startOp st h t
  | stop => exact inv_stopOp st h

/-- Every operation sequence preserves the invariant. -/
theorem inv_runOps (st : SpinnerM) (h : st.Inv) (ops : List SpinnerOp) :
    (st.runOps ops).Inv := by
  induction ops generalizing st with
  | nil => exact h
  | cons op ops ih => exact ih _ (inv_applyOp st h op)

/-- **C9.** In every state reachable from construction by any sequence
of operations (setting text, render — also a timer tick —, start,
stop), `linesToClear` equals the row count of the previously rendered
frame still on screen (0 when nothing is on screen); consequently, on
an enabled TTY, a `clear()` erases exactly that frame — never more,
never fewer rows — and a `render()` first clears exactly the previous
frame and only then draws (and caches) the new one of `lineCount`
rows. -/
theorem spinner_linesToClear_tracks_previous_frame
    (charW : Char → Nat) (columns : Nat) (text : List Char)
    (isEnabled isTTY : Bool) (frames : List String) (ops : List SpinnerOp) :
    let st := (mkSpinnerM charW columns text isEnabled isTTY frames).runOps ops
    st.linesToClear = st.screen.head?.getD 0 ∧
    (st.isEnabled = true → st.isTTY = true →
      st.clearOp.screen = st.screen.tail ∧
      st.renderOp.screen = st.lineCount :: st.screen.tail ∧
      st.renderOp.linesToClear = st.lineCount) := by
  intro st
  have hinv : st.Inv :=
    inv_runOps _ (inv_mkSpinnerM charW columns text isEnabled isTTY frames) ops
  refine ⟨hinv.1, ?_⟩
  intro he ht
  have htail := clearOp_screen_tail st hinv he ht
  refine ⟨htail, ?_, ?_⟩
  · show st.clearOp.lineCount :: st.clearOp.screen = st.lineCount :: st.screen.tail
    rw [htail, clearOp_lineCount]
  · show st.clearOp.lineCount = st.lineCount
    exact clearOp_lineCount st

/-- Witness for C9 at a concrete run: an enabled-TTY spinner with text
`"hi"`, started and then re-rendered by a tick. -/
theorem spinner_linesToClear_tracks_previous_frame_witness :
    (let st := (mkSpinnerM (fun _ => 1) 80 ['h', 'i'] true true
        ["x"]).runOps [.start none, .render]
     st.linesToClear = st.screen.head?.getD 0 ∧
     st.clearOp.screen = st.screen.tail) := by
  have h := spinner_linesToClear_tracks_previous_frame (fun _ => 1) 80
    ['h', 'i'] true true ["x"] [.start none, .render]
  exact ⟨h.1, (h.2 rfl rfl).1⟩

/-- **C10.** If `isEnabled` is forced true while the stream is not a
TTY, `clear()` returns the state unchanged — no rows erased,
`linesToClear` not reset — and every `render()` therefore pushes a new
frame onto the stream on top of the previous ones, erasing nothing. -/
theorem spinner_forced_enabled_non_tty_appends (st : SpinnerM)
    (he : st.isEnabled = true) (ht : st.isTTY = false) :
    st.clearOp = st ∧
    st.renderOp.screen = st.lineCount :: st.screen ∧
    st.renderOp.linesToClear = st.lineCount := by
  have hc : st.clearOp = st := by
    unfold SpinnerM.clearOp
    rw [he, ht]
    rfl
  refine ⟨hc, ?_, ?_⟩
  · show st.clearOp.lineCount :: st.clearOp.screen = st.lineCount :: st.screen
    rw [hc]
  · show st.clearOp.lineCount = st.lineCount
    rw [hc]

/-- Witness for C10: a forced-enabled spinner on a non-TTY stream;
two renders stack two frames. -/
theorem spinner_forced_enabled_non_tty_appends_witness :
    (let st := mkSpinnerM (fun _ => 1) 80 ['h', 'i'] true false ["x"]
     st.clearOp = st ∧ st.renderOp.screen = st.lineCount :: st.screen) := by
  have h := spinner_forced_enabled_non_tty_appends
    (mkSpinnerM (fun _ => 1) 80 ['h', 'i'] true false ["x"]) rfl rfl
  exact ⟨h.1, h.2.1⟩

/-- Witness for the amended C2 at a concrete prompt mixing an object
descriptor and a bare scalar. -/
theorem selectPrompt_initial_value_is_raw_value_prop_witness :
    ((some 0 : Option Nat).getD 0 <
      [Descriptor.obj (some (.pstr "t")) (some (.pnum 7)) false false,
       Descriptor.scalar (.pstr "b")].length) ∧
    (mkSelectPrompt
      [Descriptor.obj (some (.pstr "t")) (some (.pnum 7)) false false,
       Descriptor.scalar (.pstr "b")] (some 0)).value = some (.pnum 7) := by
  refine ⟨by decide, ?_⟩
  have h := selectPrompt_initial_value_is_raw_value_prop
    [Descriptor.obj (some (.pstr "t")) (some (.pnum 7)) false false,
     Descriptor.scalar (.pstr "b")] (some 0) (by decide)
  exact h.1.trans (by decide)

end LsMerge
